import Mathlib

/-!
# Verification of the LDP resource store (`src/lib/ldp.js`)

A shallow embedding of the resource-store orchestration layer of the LDP
server: the `put`/`get`/`post`/`delete` operations, their locking discipline,
the quota gate, range reads and the collision-free path allocator.

Modelling conventions:

* The filesystem is an association list from path to file content
  (`Store.files`); held advisory locks are the list `Store.locks`.
* Outcomes of external collaborators (quota oracle, resource mapper,
  `mkdirp`, the lock primitive, `fs` stream events, `readdir`, `rimraf`)
  are supplied as explicit environment records: one field per call site,
  holding the value that call returns or the error it throws.
* Each operation is a pure function from its inputs, its environment and the
  store to `Except HErr α × Store × List Event`.  The `Event` trace records
  which collaborators were touched, so "nothing was touched" claims are
  statements about the trace.
* JavaScript promise rejection / `throw` is `Except.error`; `try/finally`
  is embedded by performing the `finally` action on every branch.
* File contents are strings of single-byte characters, so byte offsets and
  `stat().size` coincide with string indices and length.
-/

namespace LDPStore

/-- Errors crossing the resource-store boundary.  `http status msg` embeds
`error(status, msg)` from `http-error`; `lockTimeout` is the raw error thrown
by the `proper-lockfile` primitive when its retries are exhausted;
`raw` is any other untranslated thrown error (e.g. the `URIError` of
`decodeURIComponent`); `fuel` marks that the modelled fuel for the
unbounded allocator recursion ran out. -/
inductive HErr where
  | http (status : Nat) (msg : String)
  | lockTimeout
  | raw (msg : String)
  | fuel
deriving DecidableEq, Repr

/-- Collaborator touch-points recorded while an operation runs. -/
inductive Event where
  | quotaCheck
  | mapUrl (url : String)
  | mkdir (dir : String)
  | lockAcquire (p : String)
  | lockRelease (p : String)
  | writeOpen (p : String)
  | readOpen (p : String)
  | unlinkEv (p : String)
  | readdirEv (dir : String)
  | rimrafEv (dir : String)
  | existsProbe (p : String)
  | readFileEv (p : String)
  | putCall (url : String)
deriving DecidableEq, Repr

/-- The shared filesystem tree plus the set of held path locks. -/
structure Store where
  files : List (String × String)
  locks : List String
deriving DecidableEq, Repr

/-- Look a path up in the filesystem. -/
def getFile (fs : List (String × String)) (p : String) : Option String :=
  match fs with
  | [] => none
  | (q, c) :: rest => if q = p then some c else getFile rest p

/-- Write (create or truncate-and-replace) a file. -/
def setFile (fs : List (String × String)) (p c : String) : List (String × String) :=
  match fs with
  | [] => [(p, c)]
  | (q, c₀) :: rest => if q = p then (q, c) :: rest else (q, c₀) :: setFile rest p c

/-- Embeds the container separator tests of the source — `endsWith` with
the separator and the last-character comparison against it — which agree,
and are false for the empty string.
Implemented on the character list so it reduces in the kernel. -/
def endsWithSep (s : String) : Bool :=
  match s.data.getLast? with
  | some c => c == '/'
  | none => false

/-- Leading-match test on character lists. -/
def startsWithList : List Char → List Char → Bool
  | _, [] => true
  | [], _ :: _ => false
  | c :: cs, p :: ps => c == p && startsWithList cs ps

/-- Leading-match test for strings (the `startsWith` of the source). -/
def startsWithStr (s pat : String) : Bool :=
  startsWithList s.data pat.data

/-- Drop a leading occurrence of `pat` from `cs`, when present. -/
def dropLeading : List Char → List Char → Option (List Char)
  | [], cs => some cs
  | _ :: _, [] => none
  | p :: ps, c :: cs => if c == p then dropLeading ps cs else none

/-- Splitting on a single-character separator, on character lists. -/
def splitCharList (sep : Char) : List Char → List (List Char)
  | [] => [[]]
  | c :: cs =>
    if c == sep then [] :: splitCharList sep cs
    else
      match splitCharList sep cs with
      | r :: rs => (c :: r) :: rs
      | [] => [[c]]

/-- Join path segments with `/` (the inverse of the split in `dirname`). -/
def joinSegs : List String → String
  | [] => ""
  | [x] => x
  | x :: xs => x ++ "/" ++ joinSegs xs

/-- Embeds the Node `path.dirname` for the paths the store passes it
(no trailing slash, at least one `/`): everything before the last `/`. -/
def dirname (p : String) : String :=
  match ((splitCharList '/' p.data).map String.mk).dropLast with
  | [] => "."
  | parts => joinSegs parts

/-- Outcomes of every external call `put` makes, in program order:
the quota oracle, `mapUrlToFile`, `mkdirp`, the lock primitive, and the
write stream.  `chunks` is the sequence of data chunks the input stream
would deliver in full; `errorAfter = some k` means the stream errors after
the write stream has consumed the first `k` chunks, `none` means it
finishes cleanly. -/
structure PutEnv where
  quota : Except Unit Bool
  mapPath : Except HErr String
  mkdirpOk : Bool
  lockOk : Bool
  chunks : List String
  errorAfter : Option Nat
deriving Repr

/-- Embeds `LDP#put(url, stream, contentType)` (src/lib/ldp.js:203-257).
Checks the container separator, the content type and the quota gate, then
creates the parent directory, locks the path and pipes the stream into
`fs.createWriteStream(path)` — which truncates the target on open, so the
content on disk afterward is the concatenation of the chunks consumed
before the stream finished or errored.  The lock is released in `finally`
whenever it was acquired. -/
def put (url : String) (contentType : Option String) (env : PutEnv) (s : Store) :
    Except HErr Unit × Store × List Event :=
  if endsWithSep url then
    (.error (.http 409 "PUT not supported on containers, use POST instead"), s, [])
  else if contentType.isNone then
    (.error (.http 415 "PUT request require a valid content type via the Content-Type header"),
      s, [])
  else
    match env.quota with
    | .error _ => (.error (.http 500 "Error finding user quota"), s, [.quotaCheck])
    | .ok true =>
        (.error (.http 413 "User has exceeded their storage quota"), s, [.quotaCheck])
    | .ok false =>
      match env.mapPath with
      | .error e => (.error e, s, [.quotaCheck, .mapUrl url])
      | .ok path =>
        if !env.mkdirpOk then
          (.error (.http 500 "Failed to create the path to the new resource"), s,
            [.quotaCheck, .mapUrl url, .mkdir (dirname path)])
        else if !env.lockOk then
          -- lock acquisition itself threw: nothing to release in `finally`
          (.error .lockTimeout, s,
            [.quotaCheck, .mapUrl url, .mkdir (dirname path), .lockAcquire path])
        else
          -- lock held; the write stream truncates then consumes chunks
          let consumed := match env.errorAfter with
            | none => env.chunks
            | some k => env.chunks.take k
          let s' : Store := { s with files := setFile s.files path (String.join consumed) }
          let evs := [Event.quotaCheck, .mapUrl url, .mkdir (dirname path),
            .lockAcquire path, .writeOpen path, .lockRelease path]
          match env.errorAfter with
          | none => (.ok (), s', evs)
          | some _ => (.error (.http 500 "Error writing data"), s', evs)

/-- Outcomes of the external calls `readResource` makes: `mapUrlToFile`,
the lock primitive, and `fs.readFile`. -/
structure RREnv where
  mapPath : Except HErr String
  lockOk : Bool
  readResult : Except HErr String
deriving Repr

/-- Embeds `LDP#readResource(url)` (src/lib/ldp.js:79-92).  Maps the url, locks the
path, reads the file; any thrown error is re-wrapped by the `catch` as
`error(err.status, err.message)` (modelled as the same error value, the
wrapping being status/message-preserving) and the `finally` releases the
lock whenever it was acquired.  The store is never mutated. -/
def readResource (url : String) (env : RREnv) (s : Store) :
    Except HErr String × Store × List Event :=
  match env.mapPath with
  | .error e => (.error e, s, [.mapUrl url])
  | .ok path =>
    if !env.lockOk then
      (.error .lockTimeout, s, [.mapUrl url, .lockAcquire path])
    else
      match env.readResult with
      | .ok content =>
        (.ok content, s, [.mapUrl url, .lockAcquire path, .readFileEv path, .lockRelease path])
      | .error e =>
        (.error e, s, [.mapUrl url, .lockAcquire path, .readFileEv path, .lockRelease path])

/-- Embeds `LDP#readContainerMeta(url)` (src/lib/ldp.js:94-99): append a trailing
`/` when missing, then read `url + suffixMeta`. -/
def readContainerMeta (suffixMeta url : String) (env : RREnv) (s : Store) :
    Except HErr String × Store × List Event :=
  let u := if endsWithSep url then url else url ++ "/"
  readResource (u ++ suffixMeta) env s

/-- Accumulator for base-10 `parseInt`: the value of
the leading decimal digits (signs and
leading whitespace, which a well-formed Range header never has, are not
modelled). -/
def parseDecAux : List Char → Nat → Nat
  | [], acc => acc
  | c :: cs, acc => if c.isDigit then parseDecAux cs (10 * acc + (c.toNat - 48)) else acc

/-- Embeds `parseInt(s, 10)` on a character list; `none` models `NaN`. -/
def parseIntDecL (cs : List Char) : Option Nat :=
  match cs with
  | [] => none
  | c :: _ => if c.isDigit then some (parseDecAux cs 0) else none

/-- JavaScript number truthiness for the parsed range endpoints:
`NaN` (`none`) and `0` are falsy. -/
def jsTruthyNum (o : Option Nat) : Bool :=
  match o with
  | none => false
  | some n => n != 0

/-- The values computed from a Range header in `get`
(src/lib/ldp.js:362-370). -/
structure RangeCalc where
  start : Option Nat
  stop : Option Nat
  chunksize : Option Int
  contentRange : String
deriving DecidableEq, Repr

/-- Render a JavaScript number into a string (`NaN` prints as `NaN`). -/
def numStr (o : Option Nat) : String :=
  match o with
  | none => "NaN"
  | some n => toString n

/-- The range arithmetic of `get` (src/lib/ldp.js:362-370):
`options.range.replace(/bytes=/, '').split('-')` (the replace strips the
first occurrence of `bytes=`, which for a header is the leading one), then
`start = parseInt(parts[0], 10)`;
`end = parts[1] ? parseInt(parts[1], 10) : total - 1` — note `parts[1]` is
tested for *string* truthiness, so a missing or empty end defaults;
`chunksize = (end - start) + 1` (integer arithmetic, `none` when either
endpoint is `NaN`); `contentRange` is the text `bytes start-end/total`. -/
def calcRange (r : String) (total : Nat) : RangeCalc :=
  let stripped := match dropLeading "bytes=".data r.data with
    | some rest => rest
    | none => r.data
  let parts := splitCharList '-' stripped
  let pstart := parts.headD []
  let pend := parts.get? 1
  let start := parseIntDecL pstart
  let stop := match pend with
    | some t => if t.isEmpty then some (total - 1) else parseIntDecL t
    | none => some (total - 1)
  let chunksize : Option Int := match start, stop with
    | some a, some b => some ((b : Int) - (a : Int) + 1)
    | _, _ => none
  { start, stop, chunksize,
    contentRange := "bytes " ++ numStr start ++ "-" ++ numStr stop ++ "/" ++ toString total }

/-- Options of `LDP#get` relevant to the store (`searchIndex` is forwarded
to the mapper unchanged and not modelled). -/
structure GetOptions where
  url : String
  hostname : String
  includeBody : Bool
  range : Option String
deriving Repr

/-- What `get` resolves with. -/
inductive GetResult where
  | head (container : Bool)
  | containerBody (data : String)
  | docBody (streamed : String) (contentType : Option String)
      (contentRange : Option String) (chunksize : Option Int)
deriving DecidableEq, Repr

/-- Outcomes of the external calls `get` makes: `mapUrlToFile` + `stat`
(either failure produces the 404), `mapFileToUrl` for the canonical
container uri, the environment of the nested `readContainerMeta`, the
container materialization (`listContainer`, a function of the metadata
file contents), the lock primitive and the read-stream open event. -/
structure GetEnv where
  mapResult : Except Unit (String × Option String)
  statIsDir : Except Unit Bool
  containerUrl : String
  metaEnv : RREnv
  listing : String → Except HErr String
  lockOk : Bool
  openOk : Bool

/-- Embeds `LDP#get(options)` (src/lib/ldp.js:329-393).  Resolution or stat
failure is 404.  Without `includeBody` only existence/kind is returned.
For a directory: read the container metadata, with a catch-all handler
replacing *any* failure by the empty string, then materialize the listing (failure
rethrown).  For a document: compute the range values when a Range header
is present, lock the path, and open a read stream with
`start && end ? {start, end} : {}` — the partial-range options are passed
only when both endpoints are truthy JavaScript numbers; the stream yields
the inclusive byte slice when they are passed and the whole file
otherwise.  The lock is released in `finally` whenever acquired. -/
def get (suffixMeta : String) (opts : GetOptions) (env : GetEnv) (s : Store) :
    Except HErr GetResult × Store × List Event :=
  match env.mapResult with
  | .error _ => (.error (.http 404 ("Can\x27t find file requested: " ++ opts.url)), s, [])
  | .ok (path, contentType) =>
    match env.statIsDir with
    | .error _ => (.error (.http 404 ("Can\x27t find file requested: " ++ opts.url)), s, [])
    | .ok isDir =>
      if !opts.includeBody then (.ok (.head isDir), s, [])
      else if isDir then
        let m := readContainerMeta suffixMeta env.containerUrl env.metaEnv s
        let metaFile := match m.1 with
          | .ok c => c
          | .error _ => ""
        match env.listing metaFile with
        | .error e => (.error e, m.2.1, m.2.2)
        | .ok data => (.ok (.containerBody data), m.2.1, m.2.2)
      else
        let content := (getFile s.files path).getD ""
        let rc := opts.range.map (fun r => calcRange r content.length)
        if !env.lockOk then
          (.error .lockTimeout, s, [.lockAcquire path])
        else
          let streamOpts : Option (Nat × Nat) := match rc with
            | some rc =>
              if jsTruthyNum rc.start && jsTruthyNum rc.stop then
                some (rc.start.getD 0, rc.stop.getD 0)
              else none
            | none => none
          let streamed := match streamOpts with
            | some (a, b) => String.mk ((content.data.drop a).take (b + 1 - a))
            | none => content
          if !env.openOk then
            (.error (.http 500 "Can\x27t read file"), s,
              [.lockAcquire path, .readOpen path, .lockRelease path])
          else
            (.ok (.docBody streamed contentType (rc.map (·.contentRange))
                (rc.bind (·.chunksize))), s,
              [.lockAcquire path, .readOpen path, .lockRelease path])

/-- Outcomes of the external calls `deleteResource` makes. -/
structure DREnv where
  lockOk : Bool
  unlinkOk : Bool
deriving DecidableEq, Repr

/-- Remove a path from the filesystem. -/
def removeFile (fs : List (String × String)) (p : String) : List (String × String) :=
  fs.filter (fun kv => kv.1 != p)

/-- Embeds `LDP#deleteResource(path)` (src/lib/ldp.js:439-452): lock, unlink,
wrap any failure (lock timeout included) as a failed-to-delete error built
by `error(err, msg)` — per spec §4.6 a ServerError — and release the lock in `finally`
whenever it was acquired. -/
def deleteResource (path : String) (env : DREnv) (s : Store) :
    Except HErr Unit × Store × List Event :=
  if !env.lockOk then
    (.error (.http 500 "Failed to delete resource"), s, [.lockAcquire path])
  else if env.unlinkOk then
    (.ok (), { s with files := removeFile s.files path },
      [.lockAcquire path, .unlinkEv path, .lockRelease path])
  else
    (.error (.http 500 "Failed to delete resource"), s,
      [.lockAcquire path, .unlinkEv path, .lockRelease path])

/-- Outcomes of the external calls `deleteContainer` makes:
`fs.readdir` and `rimraf`. -/
structure DCEnv where
  listing : Except Unit (List String)
  rimrafOk : Bool
deriving Repr

/-- The trailing-slash normalization at the top of `deleteContainer`. -/
def dirSlash (directory : String) : String :=
  if endsWithSep directory then directory else directory ++ "/"

/-- Recursive removal of a directory tree from the filesystem (`rimraf`). -/
def removeTree (fs : List (String × String)) (dir : String) : List (String × String) :=
  fs.filter (fun kv => !(startsWithStr kv.1 dir))

/-- Embeds `LDP#deleteContainer(directory)` (src/lib/ldp.js:413-437): normalize the
trailing slash; `readdir` failure is 404; any entry other than the
metadata and ACL suffix files is 409 with nothing touched; otherwise
`rimraf` removes the tree recursively, 500 on failure. -/
def deleteContainer (suffixMeta suffixAcl directory : String) (env : DCEnv) (s : Store) :
    Except HErr Unit × Store × List Event :=
  let dir := dirSlash directory
  match env.listing with
  | .error _ => (.error (.http 404 "The container does not exist"), s, [.readdirEv dir])
  | .ok list =>
    if list.any (fun f => f != suffixMeta && f != suffixAcl) then
      (.error (.http 409 "Container is not empty"), s, [.readdirEv dir])
    else if env.rimrafOk then
      (.ok (), { s with files := removeTree s.files dir }, [.readdirEv dir, .rimrafEv dir])
    else
      (.error (.http 500 "Failed to delete the container"), s, [.readdirEv dir, .rimrafEv dir])

/-- Embeds `URI.joinPaths(a, b).toString()` for the container uri / segment pairs
the allocator passes it: join with a single separator. -/
def joinPaths (a b : String) : String :=
  if endsWithSep a then a ++ b else a ++ "/" ++ b

/-- The recursive existence probe of `getAvailablePath`
(src/lib/ldp.js:456-465).  `S` is the set of currently existing resource
urls (`self.exists` resolves exactly on them); `p` is the original
`slug + extension`; `tokens` supplies the successive
`uuid.v1().split('-')[0]` values, as fuel for the in-principle unbounded
recursion (`none` = the modelled fuel ran out). -/
def ensureNotExists (S : List String) (containerURI p : String) :
    List String → String → Option String × List Event
  | tokens, cand =>
    if S.contains cand then
      match tokens with
      | [] => (none, [Event.existsProbe cand])
      | t :: ts =>
        let r := ensureNotExists S containerURI p ts (joinPaths containerURI (t ++ "-" ++ p))
        (r.1, Event.existsProbe cand :: r.2)
    else (some cand, [Event.existsProbe cand])

/-- The `{ slug = uuid.v1() }` destructuring default: the fresh token is
used only when no slug was supplied (`undefined`, not the empty string). -/
def slugOrDefault (slug : Option String) (defaultSlug : String) : String :=
  match slug with | some sl => sl | none => defaultSlug

/-- Embeds `LDP#getAvailablePath(host, containerURI, slug, extension)`
(src/lib/ldp.js:454-467). -/
def getAvailablePath (S : List String) (containerURI : String) (slug : Option String)
    (defaultSlug extension : String) (tokens : List String) : Option String × List Event :=
  let p := slugOrDefault slug defaultSlug ++ extension
  ensureNotExists S containerURI p tokens (joinPaths containerURI p)

/-- Hex digit value for percent-decoding. -/
def hexVal (c : Char) : Option Nat :=
  if c.isDigit then some (c.toNat - 48)
  else if 'a' ≤ c && c ≤ 'f' then some (c.toNat - 87)
  else if 'A' ≤ c && c ≤ 'F' then some (c.toNat - 55)
  else none

/-- Percent-decoding on the character list. -/
def percentDecodeList : List Char → Option (List Char)
  | [] => some []
  | '%' :: a :: b :: rest =>
    match hexVal a, hexVal b with
    | some ha, some hb => (percentDecodeList rest).map (fun r => Char.ofNat (16 * ha + hb) :: r)
    | _, _ => none
  | '%' :: _ => none
  | c :: rest => (percentDecodeList rest).map (fun r => c :: r)

/-- The JavaScript builtin `decodeURIComponent`, modelled for single-byte
sequences: `%XY` with two hex digits decodes to the code point `0xXY`,
a malformed escape throws (`none`).  Multi-byte UTF-8 escape sequences
(bytes ≥ 0x80), which the claims never exercise, are modelled as raw code
points rather than composed. -/
def decodeURIComponentAscii (s : String) : Option String :=
  (percentDecodeList s.data).map String.mk

/-- Embeds the forbidden-character regex test on the slug in `post`
(src/lib/ldp.js:142) — matching `/`, `|` or `:` — as a Bool. -/
def slugHasForbiddenChar (sl : String) : Bool :=
  sl.data.any (fun c => c == '/' || c == '|' || c == ':')

/-- The slug-preparation step at the top of `post`
(src/lib/ldp.js:140-145): a truthy (non-empty) slug is URL-decoded — a
malformed escape propagating as a raw `URIError` — and rejected with 400
when the decoded slug contains `/`, `|` or `:`. -/
def slugCheck (slug : Option String) : Except HErr (Option String) :=
  match slug with
  | none => .ok none
  | some sl =>
    if sl != "" then
      match decodeURIComponentAscii sl with
      | none => .error (.raw "URIError: URI malformed")
      | some d =>
        if slugHasForbiddenChar d then
          .error (.http 400 "The name of new file POSTed may not contain : | or /")
        else .ok (some d)
    else .ok (some sl)

/-- Embeds the Node `path.join(a, b)` for the pairs `post` passes it. -/
def pathJoin (a b : String) : String :=
  if a == "" then b
  else if endsWithSep a then a ++ b
  else a ++ "/" ++ b

/-- Options of `LDP#post`. -/
structure PostOpts where
  container : Bool
  slug : Option String
  extension : String
deriving Repr

/-- Environment of `LDP#post`: the existing-url set and uuid stream for the
allocator, `mapFileToUrl` (url and inferred content type for a filesystem
path), and the environment of the nested `put`. -/
structure PostEnv where
  existsSet : List String
  defaultSlug : String
  tokens : List String
  mapFileToUrl : String → String × Option String
  putCallEnv : PutEnv

/-- Embeds `LDP#post(host, containerPath, stream, opts)`
(src/lib/ldp.js:136-165): validate the slug, force the extension to empty
for containers, allocate a free path, for containers redirect the write to
`join(allocated, suffixMeta)` while appending a trailing `/` to the
returned path, map the file path (prefixed by the mapper root) to a url
and content type, `put` there, and return the allocated path. -/
def post (rootPath suffixMeta : String) (containerPath : String) (opts : PostOpts)
    (env : PostEnv) (s : Store) : Except HErr String × Store × List Event :=
  match slugCheck opts.slug with
  | .error e => (.error e, s, [])
  | .ok slug =>
    let extension := if opts.container then "" else opts.extension
    let alloc := getAvailablePath env.existsSet containerPath slug env.defaultSlug
      extension env.tokens
    match alloc.1 with
    | none => (.error .fuel, s, alloc.2)
    | some resourcePath =>
      let originalPath := resourcePath
      let resourcePath := if opts.container then pathJoin originalPath suffixMeta
        else resourcePath
      let originalPath := if opts.container then
          (if originalPath != "" && !(endsWithSep originalPath) then originalPath ++ "/"
           else originalPath)
        else originalPath
      let mapped := env.mapFileToUrl (rootPath ++ resourcePath)
      let r := put mapped.1 mapped.2 env.putCallEnv s
      match r.1 with
      | .ok _ => (.ok originalPath, r.2.1, alloc.2 ++ (Event.putCall mapped.1 :: r.2.2))
      | .error e => (.error e, r.2.1, alloc.2 ++ (Event.putCall mapped.1 :: r.2.2))

/-- Decidable equality of outcomes, for evaluating concrete runs. -/
instance {e a : Type} [DecidableEq e] [DecidableEq a] : DecidableEq (Except e a) := fun x y =>
  match x, y with
  | .ok v, .ok w =>
    if h : v = w then .isTrue (by rw [h]) else .isFalse (fun hc => by cases hc; exact h rfl)
  | .ok _, .error _ => .isFalse (fun hc => by cases hc)
  | .error _, .ok _ => .isFalse (fun hc => by cases hc)
  | .error v, .error w =>
    if h : v = w then .isTrue (by rw [h]) else .isFalse (fun hc => by cases hc; exact h rfl)

/-! ### Concrete instances used by the witnesses -/

/-- A 100-byte file content. -/
def c100 : String := String.join (List.replicate 10 "0123456789")

/-- Environment for a plain successful document read of `/f.bin`. -/
def rangeEnv : GetEnv :=
  { mapResult := .ok ("/f.bin", some "application/octet-stream")
    statIsDir := .ok false
    containerUrl := ""
    metaEnv := ⟨.ok "", true, .ok ""⟩
    listing := fun _ => .ok ""
    lockOk := true
    openOk := true }

/-- A store holding the 100-byte file. -/
def rangeStore : Store := ⟨[("/f.bin", c100)], []⟩

/-- A `put` environment whose stream errors after delivering one of two
chunks. -/
def putFailEnv : PutEnv := ⟨.ok false, .ok "/data/f.ttl", true, true, ["ab", "cd"], some 1⟩

/-- A store in which `/data/f.ttl` holds `old`. -/
def putFailStore : Store := ⟨[("/data/f.ttl", "old")], []⟩

/-- A `get` environment for a container whose metadata read times out on
the lock and whose materializer succeeds. -/
def metaFailEnv : GetEnv :=
  { mapResult := .ok ("/data/c/", none)
    statIsDir := .ok true
    containerUrl := "/c/"
    metaEnv := ⟨.ok "/data/c/.meta", false, .ok ""⟩
    listing := fun _ => .ok "LISTING"
    lockOk := true
    openOk := true }

/-- A successful empty metadata read. -/
def emptyMetaRead : RREnv := ⟨.ok "", true, .ok ""⟩

/-- A `post` environment that allocates `card` under an empty store and
whose nested `put` succeeds. -/
def postWEnv : PostEnv :=
  { existsSet := []
    defaultSlug := "card"
    tokens := []
    mapFileToUrl := fun p => (p, some "text/turtle")
    putCallEnv := ⟨.ok false, .ok "/fsroot/c/card/.meta", true, true, [], none⟩ }

end LDPStore

namespace LDPStore

/-! ### Helper lemmas (lock discipline of the individual operations) -/

/-- The operation `put` leaves the lock set unchanged on every outcome. -/
theorem put_locks_unchanged (url : String) (ct : Option String) (env : PutEnv) (s : Store) :
    (put url ct env s).2.1.locks = s.locks := by
  unfold put
  (repeat' split) <;> rfl

/-- The operation `readResource` returns the store it was given, on every outcome. -/
theorem readResource_store_unchanged (url : String) (env : RREnv) (s : Store) :
    (readResource url env s).2.1 = s := by
  unfold readResource
  (repeat' split) <;> rfl

/-- The operation `deleteResource` leaves the lock set unchanged on every outcome. -/
theorem deleteResource_locks_unchanged (path : String) (env : DREnv) (s : Store) :
    (deleteResource path env s).2.1.locks = s.locks := by
  unfold deleteResource
  (repeat' split) <;> rfl

/-- The operation `get` leaves the lock set unchanged on every outcome. -/
theorem get_locks_unchanged (sm : String) (opts : GetOptions) (env : GetEnv) (s : Store) :
    (get sm opts env s).2.1.locks = s.locks := by
  unfold get readContainerMeta
  (repeat' split) <;> simp [readResource_store_unchanged] <;> (repeat' split) <;> rfl

end LDPStore

namespace LDPStore

/-! ### Claim theorems -/

/-- C8: a `put` whose target identifier ends with the container separator
`/` fails with 409 Conflict, the store (filesystem and locks) is returned
untouched and the event trace is empty: neither the quota oracle, nor the
lock manager, nor the filesystem is consulted — containers are never
created through `put`. -/
theorem put_container_url_conflict (url : String) (ct : Option String)
    (env : PutEnv) (s : Store) (h : endsWithSep url = true) :
    put url ct env s =
      (.error (.http 409 "PUT not supported on containers, use POST instead"), s, []) := by
  simp [put, h]

theorem put_container_url_conflict_witness :
    put "/c/" (some "text/turtle") ⟨.ok false, .ok "/d", true, true, [], none⟩ ⟨[], []⟩ =
      (.error (.http 409 "PUT not supported on containers, use POST instead"),
        (⟨[], []⟩ : Store), []) :=
  put_container_url_conflict "/c/" (some "text/turtle") _ _ (by decide)

/-- C4: for a `put` that passes the container and content-type checks, an
over-quota report from the oracle fails the call with 413 PayloadTooLarge,
and a failing quota check fails it with 500 ServerError; in both cases the
store is returned untouched and the only recorded event is the quota
check itself — no file or directory mutation and no lock acquisition. -/
theorem put_quota_gate (url : String) (ct : Option String) (env : PutEnv) (s : Store)
    (h1 : endsWithSep url = false) (h2 : ct.isNone = false) :
    (env.quota = .ok true →
      put url ct env s = (.error (.http 413 "User has exceeded their storage quota"), s,
        [.quotaCheck])) ∧
    (∀ u : Unit, env.quota = .error u →
      put url ct env s = (.error (.http 500 "Error finding user quota"), s, [.quotaCheck])) := by
  constructor
  · intro hq; simp [put, h1, h2, hq]
  · intro u hq; simp [put, h1, h2, hq]

theorem put_quota_gate_witness :
    put "/c/x" (some "text/turtle") ⟨.ok true, .ok "/d/x", true, true, [], none⟩ ⟨[], []⟩ =
      (.error (.http 413 "User has exceeded their storage quota"), (⟨[], []⟩ : Store),
        [.quotaCheck]) :=
  (put_quota_gate "/c/x" (some "text/turtle") _ _ (by decide) (by decide)).1 rfl

/-- C1 counterexample: a `put` over existing content `old` whose stream
errors after delivering the first of its two chunks fails with the write
ServerError and leaves `ab` on disk — a partial write that is neither the
complete new content `abcd` nor the previous content `old` (the write
stream truncates the target on open and writes chunks incrementally). -/
theorem put_truncated_write_visible :
    (put "f.ttl" (some "text/turtle") putFailEnv putFailStore).1 =
      .error (.http 500 "Error writing data") ∧
    getFile (put "f.ttl" (some "text/turtle") putFailEnv putFailStore).2.1.files
      "/data/f.ttl" = some "ab" ∧
    String.join putFailEnv.chunks = "abcd" ∧
    getFile putFailStore.files "/data/f.ttl" = some "old" ∧
    ¬ ((some "ab" : Option String) = some "abcd" ∨
       (some "ab" : Option String) = some "old") :=
  ⟨by decide, by decide, by decide, by decide, by decide⟩

/-- C1 (amended): for every `put` that fails, no lock on the target path
remains held (the lock set is returned unchanged); the target file is
either untouched (when the failure precedes the write: validation, quota
gate, mapping, directory creation or lock timeout) or holds the
concatenation of exactly the chunks the input stream delivered before
erroring — a prefix of the intended content that may be incomplete. -/
theorem put_failure_releases_lock_and_leaves_delivered_chunks (url : String)
    (ct : Option String) (env : PutEnv) (s : Store)
    (h : ∃ e, (put url ct env s).1 = .error e) :
    (put url ct env s).2.1.locks = s.locks ∧
    ((put url ct env s).2.1.files = s.files ∨
      ∃ path k, env.mapPath = .ok path ∧ env.errorAfter = some k ∧
        (put url ct env s).2.1.files =
          setFile s.files path (String.join (env.chunks.take k))) := by
  refine ⟨put_locks_unchanged url ct env s, ?_⟩
  unfold put at h ⊢
  (repeat' split) <;> simp_all

theorem put_failure_releases_lock_and_leaves_delivered_chunks_witness :
    (put "f.ttl" (some "text/turtle") putFailEnv putFailStore).2.1.locks =
      putFailStore.locks ∧
    ((put "f.ttl" (some "text/turtle") putFailEnv putFailStore).2.1.files =
        putFailStore.files ∨
      ∃ path k, putFailEnv.mapPath = .ok path ∧ putFailEnv.errorAfter = some k ∧
        (put "f.ttl" (some "text/turtle") putFailEnv putFailStore).2.1.files =
          setFile putFailStore.files path (String.join (putFailEnv.chunks.take k))) :=
  put_failure_releases_lock_and_leaves_delivered_chunks "f.ttl" (some "text/turtle")
    putFailEnv putFailStore ⟨.http 500 "Error writing data", by decide⟩

/-- C3: every lock-acquiring operation — `put`, `get`, `deleteResource`
and `readResource` — returns the lock set unchanged on every exit path,
over all environments (success, stream error, lock timeout, read failure,
mapping failure): the lock on the target path is never still held when the
operation completes. -/
theorem lock_released_on_every_exit_path
    (url₁ : String) (ct : Option String) (env₁ : PutEnv) (s₁ : Store)
    (sm : String) (opts : GetOptions) (env₂ : GetEnv) (s₂ : Store)
    (p : String) (env₃ : DREnv) (s₃ : Store)
    (u : String) (env₄ : RREnv) (s₄ : Store) :
    (put url₁ ct env₁ s₁).2.1.locks = s₁.locks ∧
    (get sm opts env₂ s₂).2.1.locks = s₂.locks ∧
    (deleteResource p env₃ s₃).2.1.locks = s₃.locks ∧
    (readResource u env₄ s₄).2.1.locks = s₄.locks :=
  ⟨put_locks_unchanged url₁ ct env₁ s₁, get_locks_unchanged sm opts env₂ s₂,
    deleteResource_locks_unchanged p env₃ s₃,
    congrArg Store.locks (readResource_store_unchanged u env₄ s₄)⟩

end LDPStore

namespace LDPStore

/-- The probe loop of the allocator returns only identifiers that fail the
existence probe, and every retried candidate is the original
`slug + extension` prefixed by one of the supplied random tokens. -/
theorem ensureNotExists_fresh (S : List String) (c p : String) (tokens : List String) :
    ∀ (cand r : String),
      (ensureNotExists S c p tokens cand).1 = some r →
      S.contains r = false ∧
      (r = cand ∨ ∃ t ∈ tokens, r = joinPaths c (t ++ "-" ++ p)) := by
  induction tokens with
  | nil =>
    intro cand r h
    unfold ensureNotExists at h
    split at h
    · simp at h
    · simp only [Option.some.injEq] at h
      subst h
      rename_i hc
      exact ⟨by simpa using hc, .inl rfl⟩
  | cons t ts ih =>
    intro cand r h
    unfold ensureNotExists at h
    split at h
    · simp only at h
      obtain ⟨hc, hd⟩ := ih _ _ h
      refine ⟨hc, .inr ?_⟩
      rcases hd with heq | ⟨t', ht', heq⟩
      · exact ⟨t, List.mem_cons_self t ts, heq⟩
      · exact ⟨t', List.mem_cons_of_mem t ht', heq⟩
    · simp only [Option.some.injEq] at h
      subst h
      rename_i hc
      exact ⟨by simpa using hc, .inl rfl⟩

/-- C5: whenever `getAvailablePath` returns an identifier, that identifier
did not exist at the time of its existence probe; it is either the first
candidate `parent + slug + extension` or a retry candidate formed by
prefixing the base name with one of the short random tokens. -/
theorem getAvailablePath_returns_fresh (S : List String) (containerURI : String)
    (slug : Option String) (defaultSlug extension : String) (tokens : List String)
    (r : String)
    (h : (getAvailablePath S containerURI slug defaultSlug extension tokens).1 = some r) :
    S.contains r = false ∧
    (r = joinPaths containerURI (slugOrDefault slug defaultSlug ++ extension) ∨
      ∃ t ∈ tokens, r = joinPaths containerURI
        (t ++ "-" ++ (slugOrDefault slug defaultSlug ++ extension))) := by
  unfold getAvailablePath at h
  exact ensureNotExists_fresh S containerURI _ tokens _ r h

theorem getAvailablePath_returns_fresh_witness :
    (["/c/foo.ttl"] : List String).contains "/c/ab12-foo.ttl" = false ∧
    ("/c/ab12-foo.ttl" = joinPaths "/c/" (slugOrDefault (some "foo") "u" ++ ".ttl") ∨
      ∃ t ∈ ["ab12"], "/c/ab12-foo.ttl" = joinPaths "/c/"
        (t ++ "-" ++ (slugOrDefault (some "foo") "u" ++ ".ttl"))) :=
  getAvailablePath_returns_fresh ["/c/foo.ttl"] "/c/" (some "foo") "u" ".ttl" ["ab12"]
    "/c/ab12-foo.ttl" (by decide)

/-- C6: deleting a directory lists its entries; if any entry differs from
both the metadata suffix file and the ACL suffix file the call fails with
409 Conflict and the store is returned untouched; when only those suffix
files (or nothing) are present the whole tree under the directory is
removed recursively, with 500 ServerError (and no further guarantee
modelled) when the recursive removal fails. -/
theorem deleteContainer_spec (sm sa dir : String) (env : DCEnv) (s : Store)
    (list : List String) (h : env.listing = .ok list) :
    (list.any (fun f => f != sm && f != sa) = true →
      deleteContainer sm sa dir env s =
        (.error (.http 409 "Container is not empty"), s, [.readdirEv (dirSlash dir)])) ∧
    (list.any (fun f => f != sm && f != sa) = false →
      (env.rimrafOk = true →
        deleteContainer sm sa dir env s =
          (.ok (), { s with files := removeTree s.files (dirSlash dir) },
            [.readdirEv (dirSlash dir), .rimrafEv (dirSlash dir)])) ∧
      (env.rimrafOk = false →
        deleteContainer sm sa dir env s =
          (.error (.http 500 "Failed to delete the container"), s,
            [.readdirEv (dirSlash dir), .rimrafEv (dirSlash dir)]))) := by
  refine ⟨fun hne => ?_, fun he => ⟨fun hr => ?_, fun hr => ?_⟩⟩
  · simp [deleteContainer, h, hne]
  · simp [deleteContainer, h, he, hr]
  · simp [deleteContainer, h, he, hr]

theorem deleteContainer_spec_witness :
    deleteContainer ".meta" ".acl" "/c" ⟨.ok [".meta", "x.ttl"], true⟩
        ⟨[("/c/x.ttl", "d")], []⟩ =
      (.error (.http 409 "Container is not empty"),
        (⟨[("/c/x.ttl", "d")], []⟩ : Store), [.readdirEv (dirSlash "/c")]) :=
  (deleteContainer_spec ".meta" ".acl" "/c" _ _ [".meta", "x.ttl"] rfl).1 (by decide)

/-- C7: a `post` whose supplied slug URL-decodes to a string containing a
path separator `/`, `|` or `:` fails with 400 BadRequest, the store is
returned untouched and the event trace is empty: no existence probe, no
allocation, no filesystem mutation, no write. -/
theorem post_forbidden_slug_rejected (rootPath sm containerPath : String)
    (opts : PostOpts) (env : PostEnv) (s : Store) (sl d : String)
    (h1 : opts.slug = some sl) (h2 : (sl != "") = true)
    (h3 : decodeURIComponentAscii sl = some d)
    (h4 : slugHasForbiddenChar d = true) :
    post rootPath sm containerPath opts env s =
      (.error (.http 400 "The name of new file POSTed may not contain : | or /"), s, []) := by
  simp [post, slugCheck, h1, h2, h3, h4]

theorem post_forbidden_slug_rejected_witness :
    post "/fsroot" ".meta" "/c/" ⟨false, some "a%2Fb", ".ttl"⟩ postWEnv ⟨[], []⟩ =
      (.error (.http 400 "The name of new file POSTed may not contain : | or /"),
        (⟨[], []⟩ : Store), []) :=
  post_forbidden_slug_rejected "/fsroot" ".meta" "/c/" _ postWEnv _ "a%2Fb" "a/b"
    rfl (by decide) (by decide) (by decide)

end LDPStore

namespace LDPStore

/-- C2 (code bug): on a 100-byte document, a request for `bytes=0-10`
resolves with the *entire* 100-byte content as the stream — not the 11
bytes at offsets 0..10 the range denotes — while still reporting
`chunksize = 11` and `contentRange = bytes 0-10/100`: the partial-range
options are passed to the read stream only when `start && end` are both
truthy JavaScript numbers, and `0` is falsy.  For nonzero offsets the
inclusive slice is returned as the claim states. -/
theorem get_range_start_zero_streams_whole_file :
    (get ".meta" ⟨"/f.bin", "h", true, some "bytes=0-10"⟩ rangeEnv rangeStore).1 =
      .ok (.docBody c100 (some "application/octet-stream") (some "bytes 0-10/100")
        (some 11)) ∧
    c100.length = 100 ∧
    String.mk ((c100.data.drop 0).take (10 + 1 - 0)) ≠ c100 :=
  ⟨by decide, by decide, by decide⟩

/-- The operation `readContainerMeta` never mutates the store. -/
theorem readContainerMeta_store_unchanged (sm u : String) (env : RREnv) (s : Store) :
    (readContainerMeta sm u env s).2.1 = s :=
  readResource_store_unchanged _ env s

/-- C10: in `get` on a container, *any* failure of the metadata read —
absence, lock timeout, I/O error — is silently replaced by the empty
string (a catch-all handler returning the empty string): the call still succeeds with the listing
materialized from the empty metadata, the store is untouched, and the
result is identical to a run in which the metadata resource reads
successfully as empty. -/
theorem get_container_ignores_meta_failure (sm : String) (opts : GetOptions)
    (env : GetEnv) (s : Store) (path : String) (ct : Option String)
    (hmap : env.mapResult = .ok (path, ct)) (hdir : env.statIsDir = .ok true)
    (hbody : opts.includeBody = true) (e : HErr)
    (hfail : (readContainerMeta sm env.containerUrl env.metaEnv s).1 = .error e)
    (d : String) (hlist : env.listing "" = .ok d) :
    (get sm opts env s).1 = .ok (.containerBody d) ∧
    (get sm opts env s).2.1 = s ∧
    (get sm opts env s).1 = (get sm opts { env with metaEnv := emptyMetaRead } s).1 := by
  have h1 : (get sm opts env s).1 = .ok (.containerBody d) := by
    unfold get
    rw [hmap, hdir]
    simp only [hbody, hfail, hlist]
    rfl
  have h2 : (get sm opts env s).2.1 = s := by
    unfold get
    rw [hmap, hdir]
    simp only [hbody, hfail, hlist]
    simp [readContainerMeta_store_unchanged]
  have h3 : (get sm opts { env with metaEnv := emptyMetaRead } s).1 =
      .ok (.containerBody d) := by
    unfold get
    rw [show ({ env with metaEnv := emptyMetaRead } : GetEnv).mapResult =
      .ok (path, ct) from hmap]
    rw [show ({ env with metaEnv := emptyMetaRead } : GetEnv).statIsDir =
      .ok true from hdir]
    simp only [hbody]
    unfold readContainerMeta readResource emptyMetaRead
    simp [hlist]
  exact ⟨h1, h2, h1.trans h3.symm⟩

theorem get_container_ignores_meta_failure_witness :
    (get ".meta" ⟨"/c/", "h", true, none⟩ metaFailEnv ⟨[], []⟩).1 =
      .ok (.containerBody "LISTING") ∧
    (get ".meta" ⟨"/c/", "h", true, none⟩ metaFailEnv ⟨[], []⟩).2.1 = (⟨[], []⟩ : Store) ∧
    (get ".meta" ⟨"/c/", "h", true, none⟩ metaFailEnv ⟨[], []⟩).1 =
      (get ".meta" ⟨"/c/", "h", true, none⟩
        { metaFailEnv with metaEnv := emptyMetaRead } ⟨[], []⟩).1 :=
  get_container_ignores_meta_failure ".meta" ⟨"/c/", "h", true, none⟩ metaFailEnv
    ⟨[], []⟩ "/data/c/" none rfl rfl rfl .lockTimeout (by decide) "LISTING" rfl

/-- C9: for every `post` with the container flag that returns successfully,
the extension is irrelevant (it is forced to the empty string: the run
with any extension equals the run with the empty extension); the allocator was consulted
with the empty extension and produced some path, the on-disk creation was
a `put` to the mapped url of that allocated path joined with the metadata
suffix (the `putCall` event), and the value returned to the caller is the
allocated identifier itself without the metadata suffix, given a trailing
separator when it lacked one. -/
theorem post_container_mechanics (rootPath sm containerPath : String)
    (slug : Option String) (ext : String) (env : PostEnv) (s : Store)
    (r : String) (s' : Store) (evs : List Event)
    (h : post rootPath sm containerPath ⟨true, slug, ext⟩ env s = (.ok r, s', evs)) :
    post rootPath sm containerPath ⟨true, slug, ext⟩ env s =
      post rootPath sm containerPath ⟨true, slug, ""⟩ env s ∧
    ∃ slug' alloc,
      slugCheck slug = .ok slug' ∧
      (getAvailablePath env.existsSet containerPath slug' env.defaultSlug "" env.tokens).1 =
        some alloc ∧
      Event.putCall (env.mapFileToUrl (rootPath ++ pathJoin alloc sm)).1 ∈ evs ∧
      r = (if alloc != "" && !(endsWithSep alloc) then alloc ++ "/" else alloc) := by
  refine ⟨rfl, ?_⟩
  unfold post at h
  simp only [] at h
  cases hsc : slugCheck slug with
  | error e => rw [hsc] at h; simp at h
  | ok slug' =>
    rw [hsc] at h
    simp only [if_true] at h
    cases halloc : (getAvailablePath env.existsSet containerPath slug' env.defaultSlug
        "" env.tokens).1 with
    | none => rw [halloc] at h; simp at h
    | some resourcePath =>
      rw [halloc] at h
      simp only [] at h
      cases hput : (put (env.mapFileToUrl (rootPath ++ pathJoin resourcePath sm)).1
          (env.mapFileToUrl (rootPath ++ pathJoin resourcePath sm)).2 env.putCallEnv s).1 with
      | error e => rw [hput] at h; simp at h
      | ok v =>
        rw [hput] at h
        simp only [Prod.mk.injEq, Except.ok.injEq] at h
        obtain ⟨hr, hs, hevs⟩ := h
        refine ⟨slug', resourcePath, rfl, halloc, ?_, hr.symm⟩
        rw [← hevs]
        exact List.mem_append_right _ (List.mem_cons_self _ _)

theorem post_container_mechanics_witness :
    post "/fsroot" ".meta" "/c/" ⟨true, none, "xyz"⟩ postWEnv ⟨[], []⟩ =
      post "/fsroot" ".meta" "/c/" ⟨true, none, ""⟩ postWEnv ⟨[], []⟩ ∧
    ∃ slug' alloc,
      slugCheck none = .ok slug' ∧
      (getAvailablePath postWEnv.existsSet "/c/" slug' postWEnv.defaultSlug ""
        postWEnv.tokens).1 = some alloc ∧
      Event.putCall (postWEnv.mapFileToUrl ("/fsroot" ++ pathJoin alloc ".meta")).1 ∈
        ([.existsProbe "/c/card", .putCall "/fsroot/c/card/.meta", .quotaCheck,
          .mapUrl "/fsroot/c/card/.meta", .mkdir "/fsroot/c/card",
          .lockAcquire "/fsroot/c/card/.meta", .writeOpen "/fsroot/c/card/.meta",
          .lockRelease "/fsroot/c/card/.meta"] : List Event) ∧
      "/c/card/" = (if alloc != "" && !(endsWithSep alloc) then alloc ++ "/" else alloc) :=
  post_container_mechanics "/fsroot" ".meta" "/c/" none "xyz" postWEnv ⟨[], []⟩
    "/c/card/" ⟨[("/fsroot/c/card/.meta", "")], []⟩
    [.existsProbe "/c/card", .putCall "/fsroot/c/card/.meta", .quotaCheck,
      .mapUrl "/fsroot/c/card/.meta", .mkdir "/fsroot/c/card",
      .lockAcquire "/fsroot/c/card/.meta", .writeOpen "/fsroot/c/card/.meta",
      .lockRelease "/fsroot/c/card/.meta"] (by decide)

end LDPStore
